import Mathlib

/-!
# A verification of the `pwmp-msg` wire codec

A shallow embedding, in Lean 4, of the PixelWeatherProject `pwmp-msg` crate:
the tagged-union message model (`Request`, `Response`, `Message`), the
hand-rolled serializer/deserializer (`src/serde/serializer.rs`,
`src/serde/deserializer.rs`, `src/serde/utils.rs`, `src/serde/consts.rs`,
`src/serde/error.rs`, `src/serde/mod.rs`) and the textual `Version` parser
(`src/version.rs`).

Conventions of the embedding:

* Rust bytes (`u8`) are `Nat`s; the Rust type system's guarantee that a byte
  is below 256 becomes an explicit well-formedness predicate where a proof
  needs it.
* Multi-byte integers are serialized with `to_ne_bytes`/`from_ne_bytes` in
  the source; the reference build targets are little-endian 64-bit machines,
  so native order is little-endian and `usize` is eight bytes wide here.
* `f32` fields are carried by their 32-bit bit pattern (a `Nat`): the codec
  never computes with the float, it only copies its four bytes.
* `i8` fields are carried by their single byte (`to_ne_bytes`
  representation), again because the codec only moves the byte around.
* Rust strings (`Box<str>`) are carried as their UTF-8 byte sequence
  (a `List Nat`); the Rust type invariant that the bytes are valid UTF-8
  becomes part of the well-formedness predicate.
* The byte-cursor (`&mut impl Iterator<Item = u8>`) becomes state passing:
  a deserializer takes the input list and returns the value together with
  the not-yet-consumed remainder.
* Functions that can panic in Rust (out-of-bounds indexing, `unwrap` on an
  exhausted iterator) return an `Option` whose `none` marks the panic.
-/

namespace PwmpMsg

/-! ## Little-endian byte strings

`to_ne_bytes` / `from_ne_bytes` on the little-endian reference target. -/

/-- The `w` native-order (little-endian) bytes of `v`, least significant
byte first: `v.to_ne_bytes()` for a `w`-byte-wide integer type. -/
def natToLe : Nat → Nat → List Nat
  | 0, _ => []
  | w + 1, v => v % 256 :: natToLe w (v / 256)

/-- Read a little-endian byte string back into a number:
`from_ne_bytes` on the reference target. -/
def leToNat : List Nat → Nat
  | [] => 0
  | b :: rest => b + 256 * leToNat rest

@[simp] theorem natToLe_length (w v : Nat) : (natToLe w v).length = w := by
  induction w generalizing v with
  | zero => rfl
  | succ w ih => simp [natToLe, ih]

theorem leToNat_natToLe (w v : Nat) (h : v < 2 ^ (8 * w)) :
    leToNat (natToLe w v) = v := by
  induction w generalizing v with
  | zero => simp_all [natToLe, leToNat, Nat.lt_one_iff]
  | succ w ih =>
      have hdiv : v / 256 < 2 ^ (8 * w) := by
        rw [Nat.div_lt_iff_lt_mul (by norm_num)]
        calc v < 2 ^ (8 * (w + 1)) := h
        _ = 2 ^ (8 * w) * 256 := by ring
      simp [natToLe, leToNat, ih _ hdiv, Nat.mod_add_div]

/-! ## Data model (`src/lib.rs`, `src/request.rs`, `src/response.rs`,
`src/settings.rs`, `src/version.rs`) -/

/-- Modelled from the spec: `src/mac.rs` is declared by `lib.rs` but is not
under `src/`; §3 of the spec fixes `HardwareAddress (Mac)` as six unsigned
8-bit octets in a fixed order. -/
structure Mac where
  o0 : Nat
  o1 : Nat
  o2 : Nat
  o3 : Nat
  o4 : Nat
  o5 : Nat
deriving DecidableEq, Repr

/-- `mac[i]`: the `Index` impl of the six-octet hardware address.
Out-of-range indices have no value — in Rust they panic. -/
def Mac.index? (m : Mac) : Nat → Option Nat
  | 0 => some m.o0
  | 1 => some m.o1
  | 2 => some m.o2
  | 3 => some m.o3
  | 4 => some m.o4
  | 5 => some m.o5
  | _ => none

/-- `From<[u8; 6]> for Mac`, applied to a byte list. The decoder only calls
this with exactly six bytes; other lengths are unreachable there. -/
def Mac.ofList : List Nat → Mac
  | [a, b, c, d, e, f] => ⟨a, b, c, d, e, f⟩
  | _ => ⟨0, 0, 0, 0, 0, 0⟩

/-- `Version` (`src/version.rs`): three unsigned 8-bit components. -/
structure Version where
  major : Nat
  middle : Nat
  minor : Nat
deriving DecidableEq, Repr

/-- `From<(u8, u8, u8)> for Version`, applied to a byte list of length
three (the only length the decoder produces). -/
def Version.ofList : List Nat → Version
  | [a, b, c] => ⟨a, b, c⟩
  | _ => ⟨0, 0, 0⟩

/-- `NodeSettings` (`src/settings.rs`): the five per-node settings fields,
in declaration order. -/
structure NodeSettings where
  battery_ignore : Bool
  ota : Bool
  sleep_time : Nat
  sbop : Bool
  mute_notifications : Bool
deriving DecidableEq, Repr

/-- `NodeSettings::const_default` (`src/settings.rs`). -/
def NodeSettings.const_default : NodeSettings :=
  { battery_ignore := false
    ota := true
    sleep_time := 60
    sbop := true
    mute_notifications := false }

/-- `Request` (`src/request.rs`): the closed set of node-to-server message
bodies. `f32` fields carry their bit pattern, `i8` fields their byte,
strings their UTF-8 bytes. -/
inductive Request where
  | Ping
  | Handshake (mac : Mac)
  | PostResults (temperature : Nat) (humidity : Nat) (air_pressure : Option Nat)
  | PostStats (battery : Nat) (wifi_ssid : List Nat) (wifi_rssi : Nat)
  | SendNotification (content : List Nat)
  | GetSettings
  | UpdateCheck (current : Version)
  | NextUpdateChunk (max_chunk_size : Nat)
  | ReportFirmwareUpdate (success : Bool)
  | Bye
deriving DecidableEq, Repr

/-- `Response` (`src/response.rs`): the closed set of server-to-node message
bodies. -/
inductive Response where
  | Pong
  | Ok
  | Reject
  | InvalidRequest
  | RateLimitExceeded
  | InternalServerError
  | Stalling
  | FirmwareUpToDate
  | UpdateAvailable (version : Version)
  | UpdatePart (blob : List Nat)
  | UpdateEnd
  | Settings (settings : Option NodeSettings)
deriving DecidableEq, Repr

/-- `MessageContent` (`src/lib.rs`): exactly one of the two bodies. -/
inductive MessageContent where
  | request (req : Request)
  | response (res : Response)
deriving DecidableEq, Repr

/-- `Message` (`src/lib.rs`): correlation id plus body. -/
structure Message where
  id : Nat
  content : MessageContent
deriving DecidableEq, Repr

/-! ## Discriminant constants (`src/serde/consts.rs`) -/

namespace consts

@[simp] def OPTIONAL_EMPTY : Nat := 0
@[simp] def OPTIONAL_EXIST : Nat := 1
@[simp] def MSG_KIND_REQUEST : Nat := 4
@[simp] def MSG_KIND_RESPONSE : Nat := 6
@[simp] def REQ_KIND_PING : Nat := 10
@[simp] def REQ_KIND_HANDSHAKE : Nat := 11
@[simp] def REQ_KIND_POST_RESULTS : Nat := 12
@[simp] def REQ_KIND_POST_STATS : Nat := 13
@[simp] def REQ_KIND_SEND_NOTIFICATION : Nat := 14
@[simp] def REQ_KIND_GET_SETTINGS : Nat := 15
@[simp] def REQ_KIND_UPDATE_CHECK : Nat := 16
@[simp] def REQ_KIND_NEXT_UPDATE_CHUNK : Nat := 17
@[simp] def REQ_KIND_REPORT_FWU : Nat := 18
@[simp] def REQ_KIND_BYE : Nat := 19
@[simp] def RES_KIND_PONG : Nat := 40
@[simp] def RES_KIND_OK : Nat := 41
@[simp] def RES_KIND_REJECT : Nat := 42
@[simp] def RES_KIND_INVALID_REQ : Nat := 43
@[simp] def RES_KIND_RLE : Nat := 44
@[simp] def RES_KIND_ISE : Nat := 45
@[simp] def RES_KIND_STALLING : Nat := 46
@[simp] def RES_KIND_FW_UTD : Nat := 47
@[simp] def RES_KIND_FW_UAVAIL : Nat := 48
@[simp] def RES_KIND_FW_UPART : Nat := 49
@[simp] def RES_KIND_FW_UEND : Nat := 50
@[simp] def RES_KIND_SETTINGS : Nat := 51

end consts

/-- `Request::type_id` (`src/request.rs`). -/
def Request.type_id : Request → Nat
  | .Ping => consts.REQ_KIND_PING
  | .Handshake _ => consts.REQ_KIND_HANDSHAKE
  | .PostResults _ _ _ => consts.REQ_KIND_POST_RESULTS
  | .PostStats _ _ _ => consts.REQ_KIND_POST_STATS
  | .SendNotification _ => consts.REQ_KIND_SEND_NOTIFICATION
  | .GetSettings => consts.REQ_KIND_GET_SETTINGS
  | .UpdateCheck _ => consts.REQ_KIND_UPDATE_CHECK
  | .NextUpdateChunk _ => consts.REQ_KIND_NEXT_UPDATE_CHUNK
  | .ReportFirmwareUpdate _ => consts.REQ_KIND_REPORT_FWU
  | .Bye => consts.REQ_KIND_BYE

/-- `Response::type_id` (`src/response.rs`). -/
def Response.type_id : Response → Nat
  | .Pong => consts.RES_KIND_PONG
  | .Ok => consts.RES_KIND_OK
  | .Reject => consts.RES_KIND_REJECT
  | .InvalidRequest => consts.RES_KIND_INVALID_REQ
  | .RateLimitExceeded => consts.RES_KIND_RLE
  | .InternalServerError => consts.RES_KIND_ISE
  | .Stalling => consts.RES_KIND_STALLING
  | .FirmwareUpToDate => consts.RES_KIND_FW_UTD
  | .UpdateAvailable _ => consts.RES_KIND_FW_UAVAIL
  | .UpdatePart _ => consts.RES_KIND_FW_UPART
  | .UpdateEnd => consts.RES_KIND_FW_UEND
  | .Settings _ => consts.RES_KIND_SETTINGS

/-- Which constructor a `Request` value was built with (for stating that
`type_id` separates the constructors). -/
def Request.ctorIdx : Request → Nat
  | .Ping => 0
  | .Handshake _ => 1
  | .PostResults _ _ _ => 2
  | .PostStats _ _ _ => 3
  | .SendNotification _ => 4
  | .GetSettings => 5
  | .UpdateCheck _ => 6
  | .NextUpdateChunk _ => 7
  | .ReportFirmwareUpdate _ => 8
  | .Bye => 9

/-- Which constructor a `Response` value was built with. -/
def Response.ctorIdx : Response → Nat
  | .Pong => 0
  | .Ok => 1
  | .Reject => 2
  | .InvalidRequest => 3
  | .RateLimitExceeded => 4
  | .InternalServerError => 5
  | .Stalling => 6
  | .FirmwareUpToDate => 7
  | .UpdateAvailable _ => 8
  | .UpdatePart _ => 9
  | .UpdateEnd => 10
  | .Settings _ => 11

/-- `Message::type_id`, the message-kind byte pushed by `serde::serialize`.
Modelled from the spec: the method's body is not under `src/` (only its call
site in `serde/mod.rs` and the two constants in `serde/consts.rs` are); §6
fixes one reserved kind byte per body kind. -/
def Message.type_id (m : Message) : Nat :=
  match m.content with
  | .request _ => consts.MSG_KIND_REQUEST
  | .response _ => consts.MSG_KIND_RESPONSE

/-! ## Decode errors (`src/serde/error.rs`) -/

/-- The closed decode-error type `serde::error::Deserialize`. The
`IllegalUtf8String` variant wraps the underlying `FromUtf8Error`; here it
carries the offending byte sequence. -/
inductive DeError where
  | ExpectedOneMoreByte
  | ExpectedMoreBytes (expected : Nat) (got : Nat)
  | IllegalBoolean (b : Nat)
  | IllegalMessageType (b : Nat)
  | IllegalRequestType (b : Nat)
  | IllegalResponseType (b : Nat)
  | IllegalUtf8String (bytes : List Nat)
  | ExtraDataLeft (count : Nat)
deriving DecidableEq, Repr

/-! ## Byte-cursor utilities (`src/serde/utils.rs`) -/

/-- `utils::next_byte`: pull one byte or fail with `ExpectedOneMoreByte`. -/
def nextByte : List Nat → Except DeError (Nat × List Nat)
  | [] => .error .ExpectedOneMoreByte
  | b :: rest => .ok (b, rest)

/-- The loop body of `utils::next_bytes::<N>`: `total` is the `N` reported in
the error, `acc` the bytes read so far (their count is the loop index). -/
def nextBytesAux (total : Nat) : Nat → List Nat → List Nat →
    Except DeError (List Nat × List Nat)
  | 0, acc, l => .ok (acc, l)
  | _ + 1, acc, [] => .error (.ExpectedMoreBytes total acc.length)
  | n + 1, acc, b :: t => nextBytesAux total n (acc ++ [b]) t

/-- `utils::next_bytes::<N>`: pull exactly `n` bytes or fail with
`ExpectedMoreBytes { expected: n, got }`. -/
def nextBytes (n : Nat) (l : List Nat) : Except DeError (List Nat × List Nat) :=
  nextBytesAux n n [] l

theorem nextBytesAux_append (total : Nat) (l : List Nat) :
    ∀ (acc rest : List Nat),
      nextBytesAux total l.length acc (l ++ rest) = .ok (acc ++ l, rest) := by
  induction l with
  | nil => intro acc rest; simp [nextBytesAux]
  | cons b t ih =>
      intro acc rest
      simpa [nextBytesAux, List.append_assoc] using ih (acc ++ [b]) rest

/-- Reading exactly the length of a prefix returns that prefix and leaves
the rest untouched. -/
theorem nextBytes_append (n : Nat) (l rest : List Nat) (h : l.length = n) :
    nextBytes n (l ++ rest) = .ok (l, rest) := by
  subst h
  simpa using nextBytesAux_append l.length l [] rest

/-- Asking for more bytes than remain fails with the byte counts. -/
theorem nextBytes_short (n : Nat) (l : List Nat) (h : l.length < n) :
    nextBytes n l = .error (.ExpectedMoreBytes n l.length) := by
  have : ∀ (k : Nat) (acc t : List Nat), t.length < k →
      nextBytesAux n k acc t = .error (.ExpectedMoreBytes n (acc.length + t.length)) := by
    intro k
    induction k with
    | zero => intro acc t h; omega
    | succ k ih =>
        intro acc t h
        match t with
        | [] => simp [nextBytesAux]
        | b :: t' =>
            have := ih (acc ++ [b]) t' (by simpa using Nat.lt_of_succ_lt_succ h)
            simpa [nextBytesAux, Nat.add_comm, Nat.add_assoc, Nat.add_left_comm] using this
  simpa using this n [] l h

/-- `String::from_utf8`'s validation (RFC 3629 as implemented by
`core::str`): is `b` a continuation byte? -/
def isUtf8Cont (b : Nat) : Bool := 0x80 ≤ b && b ≤ 0xBF

/-- `String::from_utf8`'s validation: accept exactly the well-formed UTF-8
byte sequences (overlong forms, surrogates, and values above U+10FFFF are
rejected). -/
def validUtf8 : List Nat → Bool
  | [] => true
  | b :: rest =>
    if b ≤ 0x7F then validUtf8 rest
    else if 0xC2 ≤ b && b ≤ 0xDF then
      match rest with
      | c1 :: r => isUtf8Cont c1 && validUtf8 r
      | [] => false
    else if 0xE0 ≤ b && b ≤ 0xEF then
      match rest with
      | c1 :: c2 :: r =>
          (if b = 0xE0 then 0xA0 ≤ c1 && c1 ≤ 0xBF
           else if b = 0xED then 0x80 ≤ c1 && c1 ≤ 0x9F
           else isUtf8Cont c1) && isUtf8Cont c2 && validUtf8 r
      | _ => false
    else if 0xF0 ≤ b && b ≤ 0xF4 then
      match rest with
      | c1 :: c2 :: c3 :: r =>
          (if b = 0xF0 then 0x90 ≤ c1 && c1 ≤ 0xBF
           else if b = 0xF4 then 0x80 ≤ c1 && c1 ≤ 0x8F
           else isUtf8Cont c1) && isUtf8Cont c2 && isUtf8Cont c3 && validUtf8 r
      | _ => false
    else false

/-! ## The `Serializable` trait impls (`src/serde/serializer.rs`)

In the source every impl appends to a `&mut Vec<u8>`; here each serializer
returns the byte list it appends. -/

/-- `Serializable for u8`: `to_ne_bytes` of a byte is the byte itself. -/
def serU8 (v : Nat) : List Nat := [v]

/-- `Serializable for i8`: the value is carried as its byte. -/
def serI8 (v : Nat) : List Nat := [v]

/-- `Serializable for u16`. -/
def serU16 (v : Nat) : List Nat := natToLe 2 v

/-- `Serializable for u32`. -/
def serU32 (v : Nat) : List Nat := natToLe 4 v

/-- `Serializable for usize` (eight bytes on the 64-bit reference target). -/
def serUsize (v : Nat) : List Nat := natToLe 8 v

/-- `Serializable for f32`: the four bytes of the bit pattern. -/
def serF32 (v : Nat) : List Nat := natToLe 4 v

/-- `Serializable for bool`: `u8::from(*self)`. -/
def serBool (b : Bool) : List Nat := [if b then 1 else 0]

/-- `Serializable for Mac`: the six octets, no length prefix. -/
def Mac.serialize (m : Mac) : List Nat := [m.o0, m.o1, m.o2, m.o3, m.o4, m.o5]

/-- `Serializable for Version`: major, middle, minor, no length prefix. -/
def Version.serialize (v : Version) : List Nat := [v.major, v.middle, v.minor]

/-- `Serializable for NodeSettings`: the five fields in declaration order. -/
def NodeSettings.serialize (s : NodeSettings) : List Nat :=
  serBool s.battery_ignore ++ serBool s.ota ++ serU16 s.sleep_time ++
    serBool s.sbop ++ serBool s.mute_notifications

/-- `Serializable for &[u8]`: platform-width length prefix, then the raw
bytes. -/
def serBlob (val : List Nat) : List Nat := natToLe 8 val.length ++ val

/-- `Serializable for &str`: the blob encoding of the UTF-8 bytes. -/
def serStr (s : List Nat) : List Nat := serBlob s

/-- `Serializable for Option<T>`: `OPTIONAL_EMPTY`, or `OPTIONAL_EXIST`
followed by the value. -/
def serOpt (inner : α → List Nat) : Option α → List Nat
  | none => [consts.OPTIONAL_EMPTY]
  | some v => consts.OPTIONAL_EXIST :: inner v

/-- `Serializable for Request`: the discriminant byte, then the variant's
fields in declaration order with no further framing. -/
def Request.serialize (req : Request) : List Nat :=
  serU8 req.type_id ++
    match req with
    | .Ping => []
    | .Handshake mac => mac.serialize
    | .PostResults temperature humidity air_pressure =>
        serF32 temperature ++ serU8 humidity ++ serOpt serU16 air_pressure
    | .PostStats battery wifi_ssid wifi_rssi =>
        serF32 battery ++ serStr wifi_ssid ++ serI8 wifi_rssi
    | .SendNotification content => serStr content
    | .GetSettings => []
    | .UpdateCheck current => current.serialize
    | .NextUpdateChunk size => serUsize size
    | .ReportFirmwareUpdate good => serBool good
    | .Bye => []

/-- `Serializable for Response`: the discriminant byte, then the variant's
fields. -/
def Response.serialize (res : Response) : List Nat :=
  serU8 res.type_id ++
    match res with
    | .Pong => []
    | .Ok => []
    | .Reject => []
    | .InvalidRequest => []
    | .RateLimitExceeded => []
    | .InternalServerError => []
    | .Stalling => []
    | .FirmwareUpToDate => []
    | .UpdateAvailable version => version.serialize
    | .UpdatePart blob => serBlob blob
    | .UpdateEnd => []
    | .Settings settings => serOpt NodeSettings.serialize settings

/-! ## The `Deserializable` trait impls (`src/serde/deserializer.rs`)

Each impl pulls from a byte iterator; here it takes the input list and
returns the decoded value together with the unconsumed remainder. -/

/-- `Deserializable for u8`: `utils::next_byte`. -/
def deU8 (l : List Nat) : Except DeError (Nat × List Nat) := nextByte l

/-- `Deserializable for i8`: one byte, `from_ne_bytes`. -/
def deI8 (l : List Nat) : Except DeError (Nat × List Nat) := nextByte l

/-- `Deserializable for u16`. -/
def deU16 (l : List Nat) : Except DeError (Nat × List Nat) :=
  match nextBytes 2 l with
  | .error e => .error e
  | .ok (bs, rest) => .ok (leToNat bs, rest)

/-- `Deserializable for u32`. -/
def deU32 (l : List Nat) : Except DeError (Nat × List Nat) :=
  match nextBytes 4 l with
  | .error e => .error e
  | .ok (bs, rest) => .ok (leToNat bs, rest)

/-- `Deserializable for usize` (eight bytes on the reference target). -/
def deUsize (l : List Nat) : Except DeError (Nat × List Nat) :=
  match nextBytes 8 l with
  | .error e => .error e
  | .ok (bs, rest) => .ok (leToNat bs, rest)

/-- `Deserializable for f32`: four bytes, carried as the bit pattern. -/
def deF32 (l : List Nat) : Except DeError (Nat × List Nat) :=
  match nextBytes 4 l with
  | .error e => .error e
  | .ok (bs, rest) => .ok (leToNat bs, rest)

/-- `Deserializable for bool`: `0`, `1`, or `IllegalBoolean`. -/
def deBool (l : List Nat) : Except DeError (Bool × List Nat) :=
  match nextByte l with
  | .error e => .error e
  | .ok (b, rest) =>
      if b = 0 then .ok (false, rest)
      else if b = 1 then .ok (true, rest)
      else .error (.IllegalBoolean b)

/-- `Deserializable for Mac`: six raw octets. -/
def Mac.deserialize (l : List Nat) : Except DeError (Mac × List Nat) :=
  match nextBytes 6 l with
  | .error e => .error e
  | .ok (octets, rest) => .ok (Mac.ofList octets, rest)

/-- `Deserializable for Version`: three raw bytes. -/
def Version.deserialize (l : List Nat) : Except DeError (Version × List Nat) :=
  match nextBytes 3 l with
  | .error e => .error e
  | .ok (values, rest) => .ok (Version.ofList values, rest)

/-- `Deserializable for NodeSettings`: the five fields in declaration
order. -/
def NodeSettings.deserialize (l : List Nat) :
    Except DeError (NodeSettings × List Nat) :=
  match deBool l with
  | .error e => .error e
  | .ok (battery_ignore, l) =>
  match deBool l with
  | .error e => .error e
  | .ok (ota, l) =>
  match deU16 l with
  | .error e => .error e
  | .ok (sleep_time, l) =>
  match deBool l with
  | .error e => .error e
  | .ok (sbop, l) =>
  match deBool l with
  | .error e => .error e
  | .ok (mute_notifications, l) =>
      .ok (⟨battery_ignore, ota, sleep_time, sbop, mute_notifications⟩, l)

/-- `Deserializable for Box<[u8]>`: platform-width length, `take(len)`, and
an `ExpectedMoreBytes` check that exactly `len` bytes were obtained. -/
def deBlob (l : List Nat) : Except DeError (List Nat × List Nat) :=
  match deUsize l with
  | .error e => .error e
  | .ok (len, rest) =>
      let blob := rest.take len
      if blob.length ≠ len then .error (.ExpectedMoreBytes len blob.length)
      else .ok (blob, rest.drop len)

/-- `Deserializable for Box<str>`: blob-decode, then UTF-8-validate,
failing with `IllegalUtf8String` on invalid sequences. -/
def deStr (l : List Nat) : Except DeError (List Nat × List Nat) :=
  match deBlob l with
  | .error e => .error e
  | .ok (blob, rest) =>
      if validUtf8 blob then .ok (blob, rest)
      else .error (.IllegalUtf8String blob)

/-- `Deserializable for Option<T>`: a leading boolean tag, then the value
only when the tag was `1`. -/
def deOpt (inner : List Nat → Except DeError (α × List Nat)) (l : List Nat) :
    Except DeError (Option α × List Nat) :=
  match deBool l with
  | .error e => .error e
  | .ok (false, rest) => .ok (none, rest)
  | .ok (true, rest) =>
      match inner rest with
      | .error e => .error e
      | .ok (v, rest') => .ok (some v, rest')

/-- `Deserializable for Request`: read the discriminant byte, dispatch on
it, fail with `IllegalRequestType` on an unknown byte. -/
def Request.deserialize (l : List Nat) : Except DeError (Request × List Nat) :=
  match nextByte l with
  | .error e => .error e
  | .ok (req_type, l) =>
      if req_type = consts.REQ_KIND_PING then .ok (.Ping, l)
      else if req_type = consts.REQ_KIND_HANDSHAKE then
        match Mac.deserialize l with
        | .error e => .error e
        | .ok (mac, l) => .ok (.Handshake mac, l)
      else if req_type = consts.REQ_KIND_POST_RESULTS then
        match deF32 l with
        | .error e => .error e
        | .ok (temperature, l) =>
        match deU8 l with
        | .error e => .error e
        | .ok (humidity, l) =>
        match deOpt deU16 l with
        | .error e => .error e
        | .ok (air_pressure, l) => .ok (.PostResults temperature humidity air_pressure, l)
      else if req_type = consts.REQ_KIND_POST_STATS then
        match deF32 l with
        | .error e => .error e
        | .ok (battery, l) =>
        match deStr l with
        | .error e => .error e
        | .ok (wifi_ssid, l) =>
        match deI8 l with
        | .error e => .error e
        | .ok (wifi_rssi, l) => .ok (.PostStats battery wifi_ssid wifi_rssi, l)
      else if req_type = consts.REQ_KIND_SEND_NOTIFICATION then
        match deStr l with
        | .error e => .error e
        | .ok (content, l) => .ok (.SendNotification content, l)
      else if req_type = consts.REQ_KIND_GET_SETTINGS then .ok (.GetSettings, l)
      else if req_type = consts.REQ_KIND_UPDATE_CHECK then
        match Version.deserialize l with
        | .error e => .error e
        | .ok (version, l) => .ok (.UpdateCheck version, l)
      else if req_type = consts.REQ_KIND_NEXT_UPDATE_CHUNK then
        match deUsize l with
        | .error e => .error e
        | .ok (amount, l) => .ok (.NextUpdateChunk amount, l)
      else if req_type = consts.REQ_KIND_REPORT_FWU then
        match deBool l with
        | .error e => .error e
        | .ok (success, l) => .ok (.ReportFirmwareUpdate success, l)
      else if req_type = consts.REQ_KIND_BYE then .ok (.Bye, l)
      else .error (.IllegalRequestType req_type)

/-- `Deserializable for Response`: read the discriminant byte, dispatch on
it, fail with `IllegalResponseType` on an unknown byte. -/
def Response.deserialize (l : List Nat) : Except DeError (Response × List Nat) :=
  match nextByte l with
  | .error e => .error e
  | .ok (res_type, l) =>
      if res_type = consts.RES_KIND_PONG then .ok (.Pong, l)
      else if res_type = consts.RES_KIND_OK then .ok (.Ok, l)
      else if res_type = consts.RES_KIND_REJECT then .ok (.Reject, l)
      else if res_type = consts.RES_KIND_INVALID_REQ then .ok (.InvalidRequest, l)
      else if res_type = consts.RES_KIND_RLE then .ok (.RateLimitExceeded, l)
      else if res_type = consts.RES_KIND_ISE then .ok (.InternalServerError, l)
      else if res_type = consts.RES_KIND_STALLING then .ok (.Stalling, l)
      else if res_type = consts.RES_KIND_FW_UTD then .ok (.FirmwareUpToDate, l)
      else if res_type = consts.RES_KIND_FW_UAVAIL then
        match Version.deserialize l with
        | .error e => .error e
        | .ok (version, l) => .ok (.UpdateAvailable version, l)
      else if res_type = consts.RES_KIND_FW_UPART then
        match deBlob l with
        | .error e => .error e
        | .ok (blob, l) => .ok (.UpdatePart blob, l)
      else if res_type = consts.RES_KIND_FW_UEND then .ok (.UpdateEnd, l)
      else if res_type = consts.RES_KIND_SETTINGS then
        match deOpt NodeSettings.deserialize l with
        | .error e => .error e
        | .ok (settings, l) => .ok (.Settings settings, l)
      else .error (.IllegalResponseType res_type)

/-! ## Well-formedness

The Rust type system's invariants that the `Nat`/`List Nat` embedding
forgets: field values fit the wire width of their Rust type, and string
fields hold valid UTF-8 (a `Box<str>` cannot hold anything else). -/

/-- The type invariants of a `Request`'s fields. -/
def Request.WF : Request → Prop
  | .PostResults temperature _ air_pressure =>
      temperature < 2 ^ 32 ∧ ∀ a ∈ air_pressure, a < 2 ^ 16
  | .PostStats battery wifi_ssid _ =>
      battery < 2 ^ 32 ∧ wifi_ssid.length < 2 ^ 64 ∧ validUtf8 wifi_ssid = true
  | .SendNotification content =>
      content.length < 2 ^ 64 ∧ validUtf8 content = true
  | .NextUpdateChunk size => size < 2 ^ 64
  | _ => True

/-- The type invariants of a `Response`'s fields. -/
def Response.WF : Response → Prop
  | .UpdatePart blob => blob.length < 2 ^ 64
  | .Settings settings => ∀ s ∈ settings, s.sleep_time < 2 ^ 16
  | _ => True

/-- The type invariants of a `Message`'s fields. -/
def Message.WF (m : Message) : Prop :=
  m.id < 2 ^ 32 ∧
    match m.content with
    | .request req => req.WF
    | .response res => res.WF

/-! ## Round-trip of the trait codec

Each `Deserializable` impl undoes the matching `Serializable` impl and
consumes exactly its bytes. -/

@[simp] theorem deU8_ser (v : Nat) (rest : List Nat) :
    deU8 (serU8 v ++ rest) = .ok (v, rest) := rfl

@[simp] theorem deI8_ser (v : Nat) (rest : List Nat) :
    deI8 (serI8 v ++ rest) = .ok (v, rest) := rfl

@[simp] theorem nextByte_cons (b : Nat) (rest : List Nat) :
    nextByte (b :: rest) = .ok (b, rest) := rfl

@[simp] theorem deU8_cons (b : Nat) (rest : List Nat) :
    deU8 (b :: rest) = .ok (b, rest) := rfl

@[simp] theorem deI8_cons (b : Nat) (rest : List Nat) :
    deI8 (b :: rest) = .ok (b, rest) := rfl

@[simp] theorem deBool_ser (b : Bool) (rest : List Nat) :
    deBool (serBool b ++ rest) = .ok (b, rest) := by
  cases b <;> rfl

theorem deU16_ser (v : Nat) (rest : List Nat) (h : v < 2 ^ 16) :
    deU16 (serU16 v ++ rest) = .ok (v, rest) := by
  unfold deU16 serU16
  rw [nextBytes_append _ _ _ (natToLe_length _ _)]
  simp [leToNat_natToLe 2 _ h]

theorem deU32_ser (v : Nat) (rest : List Nat) (h : v < 2 ^ 32) :
    deU32 (serU32 v ++ rest) = .ok (v, rest) := by
  unfold deU32 serU32
  rw [nextBytes_append _ _ _ (natToLe_length _ _)]
  simp [leToNat_natToLe 4 _ h]

theorem deUsize_ser (v : Nat) (rest : List Nat) (h : v < 2 ^ 64) :
    deUsize (serUsize v ++ rest) = .ok (v, rest) := by
  unfold deUsize serUsize
  rw [nextBytes_append _ _ _ (natToLe_length _ _)]
  simp [leToNat_natToLe 8 _ h]

theorem deF32_ser (v : Nat) (rest : List Nat) (h : v < 2 ^ 32) :
    deF32 (serF32 v ++ rest) = .ok (v, rest) := by
  unfold deF32 serF32
  rw [nextBytes_append _ _ _ (natToLe_length _ _)]
  simp [leToNat_natToLe 4 _ h]

@[simp] theorem mac_roundtrip (m : Mac) (rest : List Nat) :
    Mac.deserialize (m.serialize ++ rest) = .ok (m, rest) := by
  unfold Mac.deserialize Mac.serialize
  rw [nextBytes_append 6 [m.o0, m.o1, m.o2, m.o3, m.o4, m.o5] rest rfl]
  rfl

@[simp] theorem version_value_roundtrip (v : Version) (rest : List Nat) :
    Version.deserialize (v.serialize ++ rest) = .ok (v, rest) := by
  unfold Version.deserialize Version.serialize
  rw [nextBytes_append 3 [v.major, v.middle, v.minor] rest rfl]
  rfl

theorem nodesettings_roundtrip (s : NodeSettings) (rest : List Nat)
    (h : s.sleep_time < 2 ^ 16) :
    NodeSettings.deserialize (s.serialize ++ rest) = .ok (s, rest) := by
  unfold NodeSettings.deserialize NodeSettings.serialize
  simp only [List.append_assoc, deBool_ser, deU16_ser _ _ h]

theorem deBlob_ser (b : List Nat) (rest : List Nat) (h : b.length < 2 ^ 64) :
    deBlob (serBlob b ++ rest) = .ok (b, rest) := by
  have hu := deUsize_ser b.length (b ++ rest) h
  unfold serUsize at hu
  unfold deBlob serBlob
  rw [List.append_assoc, hu]
  simp [List.take_left, List.drop_left]

theorem deStr_ser (s : List Nat) (rest : List Nat)
    (hlen : s.length < 2 ^ 64) (hutf : validUtf8 s = true) :
    deStr (serStr s ++ rest) = .ok (s, rest) := by
  unfold deStr serStr
  rw [deBlob_ser _ _ hlen]
  simp [hutf]

theorem deOpt_ser (inner : α → List Nat)
    (innerDe : List Nat → Except DeError (α × List Nat)) (v : Option α)
    (rest : List Nat)
    (h : ∀ x ∈ v, innerDe (inner x ++ rest) = .ok (x, rest)) :
    deOpt innerDe (serOpt inner v ++ rest) = .ok (v, rest) := by
  cases v with
  | none => simp [deOpt, serOpt, deBool, nextByte, consts.OPTIONAL_EMPTY]
  | some x =>
      have hx := h x (by simp)
      simp [deOpt, serOpt, deBool, nextByte, consts.OPTIONAL_EXIST, hx]

/-- A well-formed `Request` round-trips through the trait codec, consuming
exactly its own encoding. -/
theorem request_roundtrip (req : Request) (rest : List Nat)
    (h : req.WF) :
    Request.deserialize (req.serialize ++ rest) = .ok (req, rest) := by
  cases req with
  | Ping => rfl
  | Handshake mac =>
      simp [Request.serialize, Request.deserialize, Request.type_id, serU8,
        nextByte, consts.REQ_KIND_HANDSHAKE, consts.REQ_KIND_PING]
  | PostResults temperature humidity air_pressure =>
      obtain ⟨ht, hap⟩ := h
      have hopt : deOpt deU16 (serOpt serU16 air_pressure ++ rest) =
          .ok (air_pressure, rest) :=
        deOpt_ser _ _ _ _ (fun x hx => deU16_ser x rest (hap x hx))
      simp [Request.serialize, Request.deserialize, Request.type_id, serU8,
        nextByte, consts.REQ_KIND_POST_RESULTS, consts.REQ_KIND_PING,
        consts.REQ_KIND_HANDSHAKE, List.append_assoc, deF32_ser _ _ ht, hopt]
  | PostStats battery wifi_ssid wifi_rssi =>
      obtain ⟨hb, hlen, hutf⟩ := h
      simp [Request.serialize, Request.deserialize, Request.type_id, serU8,
        nextByte, consts.REQ_KIND_POST_STATS, consts.REQ_KIND_PING,
        consts.REQ_KIND_HANDSHAKE, consts.REQ_KIND_POST_RESULTS,
        List.append_assoc, deF32_ser _ _ hb, deStr_ser _ _ hlen hutf]
  | SendNotification content =>
      obtain ⟨hlen, hutf⟩ := h
      simp [Request.serialize, Request.deserialize, Request.type_id, serU8,
        nextByte, consts.REQ_KIND_SEND_NOTIFICATION, consts.REQ_KIND_PING,
        consts.REQ_KIND_HANDSHAKE, consts.REQ_KIND_POST_RESULTS,
        consts.REQ_KIND_POST_STATS, deStr_ser _ _ hlen hutf]
  | GetSettings =>
      simp [Request.serialize, Request.deserialize, Request.type_id, serU8,
        nextByte, consts.REQ_KIND_GET_SETTINGS, consts.REQ_KIND_PING,
        consts.REQ_KIND_HANDSHAKE, consts.REQ_KIND_POST_RESULTS,
        consts.REQ_KIND_POST_STATS, consts.REQ_KIND_SEND_NOTIFICATION]
  | UpdateCheck current =>
      simp [Request.serialize, Request.deserialize, Request.type_id, serU8,
        nextByte, consts.REQ_KIND_UPDATE_CHECK, consts.REQ_KIND_PING,
        consts.REQ_KIND_HANDSHAKE, consts.REQ_KIND_POST_RESULTS,
        consts.REQ_KIND_POST_STATS, consts.REQ_KIND_SEND_NOTIFICATION,
        consts.REQ_KIND_GET_SETTINGS]
  | NextUpdateChunk size =>
      simp [Request.serialize, Request.deserialize, Request.type_id, serU8,
        nextByte, consts.REQ_KIND_NEXT_UPDATE_CHUNK, consts.REQ_KIND_PING,
        consts.REQ_KIND_HANDSHAKE, consts.REQ_KIND_POST_RESULTS,
        consts.REQ_KIND_POST_STATS, consts.REQ_KIND_SEND_NOTIFICATION,
        consts.REQ_KIND_GET_SETTINGS, consts.REQ_KIND_UPDATE_CHECK,
        deUsize_ser _ _ h]
  | ReportFirmwareUpdate good =>
      simp [Request.serialize, Request.deserialize, Request.type_id, serU8,
        nextByte, consts.REQ_KIND_REPORT_FWU, consts.REQ_KIND_PING,
        consts.REQ_KIND_HANDSHAKE, consts.REQ_KIND_POST_RESULTS,
        consts.REQ_KIND_POST_STATS, consts.REQ_KIND_SEND_NOTIFICATION,
        consts.REQ_KIND_GET_SETTINGS, consts.REQ_KIND_UPDATE_CHECK,
        consts.REQ_KIND_NEXT_UPDATE_CHUNK]
  | Bye =>
      simp [Request.serialize, Request.deserialize, Request.type_id, serU8,
        nextByte, consts.REQ_KIND_BYE, consts.REQ_KIND_PING,
        consts.REQ_KIND_HANDSHAKE, consts.REQ_KIND_POST_RESULTS,
        consts.REQ_KIND_POST_STATS, consts.REQ_KIND_SEND_NOTIFICATION,
        consts.REQ_KIND_GET_SETTINGS, consts.REQ_KIND_UPDATE_CHECK,
        consts.REQ_KIND_NEXT_UPDATE_CHUNK, consts.REQ_KIND_REPORT_FWU]

/-- A well-formed `Response` round-trips through the trait codec, consuming
exactly its own encoding. -/
theorem response_roundtrip (res : Response) (rest : List Nat)
    (h : res.WF) :
    Response.deserialize (res.serialize ++ rest) = .ok (res, rest) := by
  cases res with
  | UpdateAvailable version =>
      simp [Response.serialize, Response.deserialize, Response.type_id, serU8,
        nextByte]
  | UpdatePart blob =>
      simp [Response.serialize, Response.deserialize, Response.type_id, serU8,
        nextByte, deBlob_ser _ _ h]
  | Settings settings =>
      have hopt : deOpt NodeSettings.deserialize
          (serOpt NodeSettings.serialize settings ++ rest) =
          .ok (settings, rest) :=
        deOpt_ser _ _ _ _
          (fun s hs => nodesettings_roundtrip s rest (h s hs))
      simp [Response.serialize, Response.deserialize, Response.type_id, serU8,
        nextByte, hopt]
  | _ =>
      simp [Response.serialize, Response.deserialize, Response.type_id, serU8,
        nextByte]

/-! ## The message envelope codec

`serde/error.rs` declares `IllegalMessageType` and `ExtraDataLeft`, but the
`Result`-based message-level encode/decode that produces them is not under
`src/` — only the inner variant codecs, the constants and the error
declarations are. The envelope is therefore modelled from the spec (§4.4,
§6) on top of the in-source `Serializable`/`Deserializable` impls. -/

/-- Modelled from the spec: the message-level encode of §6 — the missing
`Message::serialize` body. Layout `[id: 4 bytes][kind: 1 byte][variant]`,
no framing markers (§6 makes them optional; §4.4's reference format is the
bare id + kind + variant encoding). -/
def Message.encode (m : Message) : List Nat :=
  serU32 m.id ++ serU8 m.type_id ++
    match m.content with
    | .request req => req.serialize
    | .response res => res.serialize

/-- Modelled from the spec: the message-level decode of §4.4 — the missing
`Message::deserialize` body. Reads the id, the kind byte, dispatches to the
in-source variant decoder, and then requires the input to be exhausted,
failing with `ExtraDataLeft(n)` on `n` leftover bytes. -/
def Message.decode (l : List Nat) : Except DeError Message :=
  match deU32 l with
  | .error e => .error e
  | .ok (id, l) =>
  match nextByte l with
  | .error e => .error e
  | .ok (kind, l) =>
      if kind = consts.MSG_KIND_REQUEST then
        match Request.deserialize l with
        | .error e => .error e
        | .ok (req, rest) =>
            if rest = [] then .ok ⟨id, .request req⟩
            else .error (.ExtraDataLeft rest.length)
      else if kind = consts.MSG_KIND_RESPONSE then
        match Response.deserialize l with
        | .error e => .error e
        | .ok (res, rest) =>
            if rest = [] then .ok ⟨id, .response res⟩
            else .error (.ExtraDataLeft rest.length)
      else .error (.IllegalMessageType kind)

/-- Decoding an encoded well-formed message with `extra` appended leaves the
inner decode at exactly `extra`. -/
theorem Message.decode_encode_append (m : Message) (extra : List Nat)
    (h : m.WF) :
    Message.decode (m.encode ++ extra) =
      if extra = [] then .ok m else .error (.ExtraDataLeft extra.length) := by
  obtain ⟨hid, hcontent⟩ := h
  cases m with
  | mk id content =>
      cases content with
      | request req =>
          have hreq := request_roundtrip req extra hcontent
          simp only [Message.encode, Message.type_id, List.append_assoc]
          rw [Message.decode]
          rw [deU32_ser _ _ hid]
          simp [serU8, hreq]
      | response res =>
          have hres := response_roundtrip res extra hcontent
          simp only [Message.encode, Message.type_id, List.append_assoc]
          rw [Message.decode]
          rw [deU32_ser _ _ hid]
          simp [serU8, hres]

/-- A well-formed message round-trips through the envelope codec. -/
theorem Message.decode_encode (m : Message) (h : m.WF) :
    Message.decode m.encode = .ok m := by
  have := Message.decode_encode_append m [] h
  simpa using this

/-! ## The free-function codec of `src/serde/mod.rs`

`serde::serialize`/`serde::deserialize` and their request/response helpers
predate the trait codec: they return `Option` and they still call the
`utils` deserializers as if those returned plain values. The embedding
keeps their control flow byte for byte; a call to a `Result`-returning
`utils` function whose result is bound as a plain value is modelled with
the pre-`Result` semantics of those helpers, where failing to obtain the
bytes was a panic. As everywhere in this file, an outer `none` marks a
panic; the inner `Option` is the function's own `Option` return value. -/

/-- `utils::deserialize_blob` (`src/serde/utils.rs`): decode the length
prefix, then collect `len` bytes of payload, each obtained with
`bytes.next().unwrap()` — the `unwrap` panics (`none`) when the input holds
fewer than `len` further bytes. -/
def utils.deserialize_blob (l : List Nat) :
    Option (Except DeError (List Nat × List Nat)) :=
  match deUsize l with
  | .error e => some (.error e)
  | .ok (len, rest) =>
      if len ≤ rest.length then some (.ok (rest.take len, rest.drop len))
      else none

/-- The body pushed by `serde::serialize_request` after the `type_id` byte
(`src/serde/mod.rs`). The `Handshake` arm copies `mac[0]` through `mac[6]`
— seven octets; `mac[6]` is out of bounds. -/
def serde.serialize_request_body : Request → Option (List Nat)
  | .Ping => some [0]
  | .Handshake mac =>
      match mac.index? 0, mac.index? 1, mac.index? 2, mac.index? 3,
          mac.index? 4, mac.index? 5, mac.index? 6 with
      | some a, some b, some c, some d, some e, some f, some g =>
          some [a, b, c, d, e, f, g]
      | _, _, _, _, _, _, _ => none
  | .PostResults temperature humidity air_pressure =>
      some (natToLe 4 temperature ++ [humidity] ++ serOpt serU16 air_pressure)
  | .PostStats battery wifi_ssid wifi_rssi =>
      some (natToLe 4 battery ++ serBlob wifi_ssid ++ [wifi_rssi])
  | .SendNotification content => some (serBlob content)
  | .GetSettings => some [1]
  | .UpdateCheck current => some [current.major, current.middle, current.minor]
  | .NextUpdateChunk size => some (natToLe 8 size)
  | .ReportFirmwareUpdate good => some [if good then 1 else 0]
  | .Bye => some [2]

/-- `serde::serialize_request` (`src/serde/mod.rs`): the `type_id` byte,
then the variant body. -/
def serde.serialize_request (req : Request) : Option (List Nat) :=
  (serde.serialize_request_body req).map (fun body => req.type_id :: body)

/-- The body pushed by `serde::serialize_response` after the `type_id`
byte (`src/serde/mod.rs`). Every field-free variant pushes one extra
index byte; `UpdatePart` appends the raw blob with no length prefix; the
`Settings` arm pushes `sbop` twice. -/
def serde.serialize_response_body : Response → List Nat
  | .Pong => [0]
  | .Ok => [1]
  | .Reject => [2]
  | .InvalidRequest => [3]
  | .RateLimitExceeded => [4]
  | .InternalServerError => [5]
  | .Stalling => [6]
  | .FirmwareUpToDate => [7]
  | .UpdateAvailable new_version =>
      [new_version.major, new_version.middle, new_version.minor]
  | .UpdatePart blob => blob
  | .UpdateEnd => [8]
  | .Settings settings =>
      serOpt
        (fun s =>
          serBool s.battery_ignore ++ serBool s.ota ++
            natToLe 2 s.sleep_time ++ serBool s.sbop ++ serBool s.sbop ++
            serBool s.mute_notifications)
        settings

/-- `serde::serialize_response` (`src/serde/mod.rs`). -/
def serde.serialize_response (res : Response) : List Nat :=
  res.type_id :: serde.serialize_response_body res

/-- `serde::serialize` (`src/serde/mod.rs`): the message id's four native
bytes, the message-kind byte, then the request/response encoding. -/
def serde.serialize (msg : Message) : Option (List Nat) :=
  match msg.content with
  | .request req =>
      (serde.serialize_request req).map
        (fun body => natToLe 4 msg.id ++ msg.type_id :: body)
  | .response res =>
      some (natToLe 4 msg.id ++ msg.type_id :: serde.serialize_response res)

/-- `serde::deserialize_request` (`src/serde/mod.rs`): `Option`-returning
dispatch on the request-type byte. `bytes.next()?` returns `some none` on
exhaustion; `bytes.next().unwrap()` (the `from_fn` loops) and the plainly
bound `utils::deserialize_*` calls panic (`none`) instead. -/
def serde.deserialize_request (l : List Nat) : Option (Option Request) :=
  match l with
  | [] => some none
  | req_type :: l =>
      if req_type = consts.REQ_KIND_PING then some (some .Ping)
      else if req_type = consts.REQ_KIND_HANDSHAKE then
        match l with
        | b0 :: b1 :: b2 :: b3 :: b4 :: b5 :: _ =>
            some (some (.Handshake ⟨b0, b1, b2, b3, b4, b5⟩))
        | _ => some none
      else if req_type = consts.REQ_KIND_POST_RESULTS then
        match l with
        | t0 :: t1 :: t2 :: t3 :: l =>
            let temperature := leToNat [t0, t1, t2, t3]
            match l with
            | humidity :: l =>
                match l with
                | [] => some none
                | 0 :: _ =>
                    some (some (.PostResults temperature humidity none))
                | _ :: a0 :: a1 :: _ =>
                    some (some (.PostResults temperature humidity
                      (some (leToNat [a0, a1]))))
                | _ => none
            | [] => some none
        | _ => none
      else if req_type = consts.REQ_KIND_POST_STATS then
        match deF32 l with
        | .error _ => none
        | .ok (battery, l) =>
        match deStr l with
        | .error _ => none
        | .ok (wifi_ssid, l) =>
        match deI8 l with
        | .error _ => none
        | .ok (wifi_rssi, _) => some (some (.PostStats battery wifi_ssid wifi_rssi))
      else if req_type = consts.REQ_KIND_SEND_NOTIFICATION then
        match deStr l with
        | .error _ => none
        | .ok (content, _) => some (some (.SendNotification content))
      else if req_type = consts.REQ_KIND_GET_SETTINGS then some (some .GetSettings)
      else if req_type = consts.REQ_KIND_UPDATE_CHECK then
        match Version.deserialize l with
        | .error _ => none
        | .ok (version, _) => some (some (.UpdateCheck version))
      else if req_type = consts.REQ_KIND_NEXT_UPDATE_CHUNK then
        match deUsize l with
        | .error _ => none
        | .ok (amount, _) => some (some (.NextUpdateChunk amount))
      else if req_type = consts.REQ_KIND_REPORT_FWU then
        match deBool l with
        | .error _ => none
        | .ok (success, _) => some (some (.ReportFirmwareUpdate success))
      else if req_type = consts.REQ_KIND_BYE then some (some .Bye)
      else some none

/-- `serde::deserialize_response` (`src/serde/mod.rs`): `Option`-returning
dispatch on the response-type byte. In the `Settings` arm the presence tag
is read with `bytes.next().unwrap_or_default()`, so a missing tag byte
counts as `0`, and any nonzero tag byte selects the present case. -/
def serde.deserialize_response (l : List Nat) : Option (Option Response) :=
  match l with
  | [] => some none
  | res_type :: l =>
      if res_type = consts.RES_KIND_PONG then some (some .Pong)
      else if res_type = consts.RES_KIND_OK then some (some .Ok)
      else if res_type = consts.RES_KIND_REJECT then some (some .Reject)
      else if res_type = consts.RES_KIND_INVALID_REQ then some (some .InvalidRequest)
      else if res_type = consts.RES_KIND_RLE then some (some .RateLimitExceeded)
      else if res_type = consts.RES_KIND_ISE then some (some .InternalServerError)
      else if res_type = consts.RES_KIND_STALLING then some (some .Stalling)
      else if res_type = consts.RES_KIND_FW_UTD then some (some .FirmwareUpToDate)
      else if res_type = consts.RES_KIND_FW_UAVAIL then
        match Version.deserialize l with
        | .error _ => none
        | .ok (version, _) => some (some (.UpdateAvailable version))
      else if res_type = consts.RES_KIND_FW_UPART then
        match utils.deserialize_blob l with
        | none => none
        | some (.error _) => none
        | some (.ok (blob, _)) => some (some (.UpdatePart blob))
      else if res_type = consts.RES_KIND_FW_UEND then some (some .UpdateEnd)
      else if res_type = consts.RES_KIND_SETTINGS then
        match l with
        | [] => some (some (.Settings none))
        | 0 :: _ => some (some (.Settings none))
        | _ :: l =>
            match deBool l with
            | .error _ => none
            | .ok (battery_ignore, l) =>
            match deBool l with
            | .error _ => none
            | .ok (ota, l) =>
            match deU16 l with
            | .error _ => none
            | .ok (sleep_time, l) =>
            match deBool l with
            | .error _ => none
            | .ok (sbop, l) =>
            match deBool l with
            | .error _ => none
            | .ok (mute_notifications, _) =>
                some (some (.Settings (some
                  ⟨battery_ignore, ota, sleep_time, sbop, mute_notifications⟩)))
      else some none

/-- `serde::deserialize` (`src/serde/mod.rs`): the message id is read from
`bytes[..4]` — the slicing panics on fewer than four bytes — but the
message-kind byte is then read from `bytes[0]`, the id's first byte, and
the body decoder is handed `bytes[1..]`. -/
def serde.deserialize (bytes : List Nat) : Option (Option Message) :=
  match bytes with
  | b0 :: b1 :: b2 :: b3 :: rest =>
      let msg_id := leToNat [b0, b1, b2, b3]
      let msg_type := b0
      if msg_type = consts.MSG_KIND_REQUEST then
        match serde.deserialize_request (b1 :: b2 :: b3 :: rest) with
        | none => none
        | some none => some none
        | some (some req) => some (some ⟨msg_id, .request req⟩)
      else if msg_type = consts.MSG_KIND_RESPONSE then
        match serde.deserialize_response (b1 :: b2 :: b3 :: rest) with
        | none => none
        | some none => some none
        | some (some res) => some (some ⟨msg_id, .response res⟩)
      else some none
  | _ => none

/-! ## The textual version parser (`src/version.rs`)

`Version::parse` runs `input.splitn(3, '.')` and `u8::from_str` on each of
the (at most three) items; `Display` renders `"{major}.{middle}.{minor}"`.
Strings are handled as their character lists. -/

/-- One step of `splitn(_, '.')`: the characters before the first `'.'`
and the raw remainder after it, or `none` when the text holds no `'.'`. -/
def splitAtFirstDot : List Char → Option (List Char × List Char)
  | [] => none
  | c :: t =>
      if c = '.' then some ([], t)
      else (splitAtFirstDot t).map (fun p => (c :: p.1, p.2))

/-- `u8::from_str`: an optional leading `'+'`, then one or more decimal
digits whose value fits in eight bits; anything else is a parse error. -/
def parseU8 (g : List Char) : Option Nat :=
  let ds := if g.head? = some '+' then g.tail else g
  if ds.isEmpty then none
  else if ds.all Char.isDigit then
    let v := ds.foldl (fun a c => a * 10 + (c.toNat - '0'.toNat)) 0
    if v <= 255 then some v else none
  else none

/-- `Version::parse` on the character list: `splitn(3, '.')` yields the
text before the first dot, then the text between the first and second
dots, then the raw remainder; each item goes through `u8::from_str`, and a
missing item or failed parse yields `None`. -/
def Version.parseChars (s : List Char) : Option Version :=
  match splitAtFirstDot s with
  | none =>
      -- one item only: whatever `from_str` makes of it, the second
      -- `parts.next()` has nothing to yield
      none
  | some (g1, r1) =>
      match parseU8 g1 with
      | none => none
      | some major =>
          match splitAtFirstDot r1 with
          | none =>
              -- two items only: the third `parts.next()` has nothing
              none
          | some (g2, r2) =>
              match parseU8 g2 with
              | none => none
              | some middle =>
                  -- the third item is the raw remainder, not split further
                  match parseU8 r2 with
                  | none => none
                  | some minor => some (Version.mk major middle minor)

/-- `Version::parse` (`src/version.rs`). -/
def Version.parse (s : String) : Option Version :=
  Version.parseChars s.data

/-- `Display for Version` (`src/version.rs`):
`"{major}.{middle}.{minor}"`. -/
def Version.toText (v : Version) : String :=
  toString v.major ++ "." ++ toString v.middle ++ "." ++ toString v.minor

/-- Splitting at every `'.'` (for stating the claim's shape: the text
"splits on `'.'` into exactly three groups"). -/
def splitAllDots : List Char → List (List Char)
  | [] => [[]]
  | c :: t =>
      if c = '.' then [] :: splitAllDots t
      else
        match splitAllDots t with
        | [] => [[c]]
        | g :: gs => (c :: g) :: gs

/-- A nonempty all-decimal-digit group whose value fits in an unsigned
byte — the group shape named by the spec sentence. -/
def isDigitGroup (g : List Char) : Bool :=
  !g.isEmpty && g.all Char.isDigit &&
    g.foldl (fun a c => a * 10 + (c.toNat - '0'.toNat)) 0 <= 255

/-- The claimed acceptance condition: the text splits on `'.'` into
exactly three decimal-digit groups, each fitting in an unsigned byte. -/
def versionShapeClaimed (s : List Char) : Bool :=
  match splitAllDots s with
  | [g1, g2, g3] => isDigitGroup g1 && isDigitGroup g2 && isDigitGroup g3
  | _ => false

/-- The amended acceptance condition: each of the exactly three groups is
an optionally-`'+'`-prefixed digit group fitting in an unsigned byte
(`u8::from_str` accepts one leading `'+'`). -/
def versionShapeAmended (s : List Char) : Bool :=
  match splitAllDots s with
  | [g1, g2, g3] =>
      (parseU8 g1).isSome && (parseU8 g2).isSome && (parseU8 g3).isSome
  | _ => false

theorem splitAllDots_ne_nil (s : List Char) : splitAllDots s ≠ [] := by
  cases s with
  | nil => simp [splitAllDots]
  | cons c t =>
      by_cases hc : c = '.'
      · simp [splitAllDots, hc]
      · rcases h : splitAllDots t with _ | ⟨g, gs⟩ <;> simp [splitAllDots, hc, h]

theorem splitAtFirstDot_none (s : List Char) (h : splitAtFirstDot s = none) :
    splitAllDots s = [s] := by
  induction s with
  | nil => rfl
  | cons c t ih =>
      by_cases hc : c = '.'
      · simp [splitAtFirstDot, hc] at h
      · simp only [splitAtFirstDot, hc, if_false] at h
        cases hsplit : splitAtFirstDot t with
        | some p => rw [hsplit] at h; simp at h
        | none => simp [splitAllDots, hc, ih hsplit]

theorem splitAtFirstDot_some (s : List Char) :
    ∀ (a b : List Char), splitAtFirstDot s = some (a, b) →
      splitAllDots s = a :: splitAllDots b := by
  induction s with
  | nil => intro a b h; simp [splitAtFirstDot] at h
  | cons c t ih =>
      intro a b h
      by_cases hc : c = '.'
      · simp only [splitAtFirstDot, hc, if_true, Option.some_inj,
          Prod.mk.injEq] at h
        obtain ⟨rfl, rfl⟩ := h
        simp [splitAllDots, hc]
      · cases hsplit : splitAtFirstDot t with
        | none => simp [splitAtFirstDot, hc, hsplit] at h
        | some p =>
            obtain ⟨a1, b1⟩ := p
            simp only [splitAtFirstDot, hc, if_false, hsplit,
              Option.map_some, Option.some_inj, Prod.mk.injEq] at h
            obtain ⟨rfl, rfl⟩ := h
            simp [splitAllDots, hc, ih a1 b1 hsplit]

theorem splitAtFirstDot_of_not_mem (s : List Char) (h : '.' ∉ s) :
    splitAtFirstDot s = none := by
  induction s with
  | nil => rfl
  | cons c t ih =>
      have hc : ¬c = '.' := fun hcc => h (hcc ▸ List.mem_cons_self c t)
      have ht : '.' ∉ t := fun hm => h (List.mem_cons_of_mem c hm)
      simp [splitAtFirstDot, hc, ih ht]

/-- In an accepted `u8::from_str` group, everything after the optional
sign is a decimal digit. -/
theorem parseU8_all_digits (g : List Char) (v : Nat) (h : parseU8 g = some v) :
    (if g.head? = some '+' then g.tail else g).all Char.isDigit = true := by
  unfold parseU8 at h
  by_cases hemp : (if g.head? = some '+' then g.tail else g).isEmpty
  · simp [hemp] at h
  · simp only [hemp, if_false] at h
    by_cases hall : (if g.head? = some '+' then g.tail else g).all Char.isDigit
    · exact hall
    · simp [hall] at h

/-- A group `u8::from_str` accepts contains no `'.'`, hence splits no
further. -/
theorem parseU8_no_dot (g : List Char) (v : Nat) (h : parseU8 g = some v) :
    splitAtFirstDot g = none := by
  apply splitAtFirstDot_of_not_mem
  intro hmem
  have hall := parseU8_all_digits g v h
  by_cases hp : g.head? = some '+'
  · rw [if_pos hp] at hall
    cases g with
    | nil => simp at hp
    | cons c t =>
        simp only [List.head?_cons, Option.some_inj] at hp
        subst hp
        rcases List.mem_cons.mp hmem with heq | hmem
        · exact absurd heq (by decide)
        · have hd := List.all_eq_true.mp (by simpa using hall) _ hmem
          exact absurd hd (by decide)
  · rw [if_neg hp] at hall
    have hd := List.all_eq_true.mp hall _ hmem
    exact absurd hd (by decide)

/-- `Version::parse` succeeds exactly on texts that split on `'.'` into
three `u8::from_str`-accepted groups. -/
theorem Version.parseChars_isSome (s : List Char) :
    (Version.parseChars s).isSome = versionShapeAmended s := by
  unfold Version.parseChars versionShapeAmended
  cases h1 : splitAtFirstDot s with
  | none =>
      rw [splitAtFirstDot_none s h1]
      simp [h1]
  | some p =>
      obtain ⟨g1, r1⟩ := p
      rw [splitAtFirstDot_some s g1 r1 h1]
      cases hp1 : parseU8 g1 with
      | none =>
          rcases h2 : splitAllDots r1 with _ | ⟨g2, rest2⟩
          · exact absurd h2 (splitAllDots_ne_nil r1)
          · rcases rest2 with _ | ⟨g3, rest3⟩
            · simp [h1, hp1]
            · rcases rest3 with _ | ⟨g4, rest4⟩ <;> simp [h1, hp1]
      | some major =>
          cases h2 : splitAtFirstDot r1 with
          | none =>
              rw [splitAtFirstDot_none r1 h2]
              simp [h1, hp1, h2]
          | some q =>
              obtain ⟨g2, r2⟩ := q
              rw [splitAtFirstDot_some r1 g2 r2 h2]
              cases hp2 : parseU8 g2 with
              | none =>
                  rcases h3 : splitAllDots r2 with _ | ⟨g3, rest3⟩
                  · exact absurd h3 (splitAllDots_ne_nil r2)
                  · rcases rest3 with _ | ⟨g4, rest4⟩ <;>
                      simp [h1, hp1, h2, hp2]
              | some middle =>
                  cases hp3 : parseU8 r2 with
                  | none =>
                      cases h3 : splitAtFirstDot r2 with
                      | none =>
                          rw [splitAtFirstDot_none r2 h3]
                          simp [h1, hp1, h2, hp2, hp3]
                      | some r =>
                          obtain ⟨a, b⟩ := r
                          rw [splitAtFirstDot_some r2 a b h3]
                          rcases h4 : splitAllDots b with _ | ⟨x, xs⟩
                          · exact absurd h4 (splitAllDots_ne_nil b)
                          · simp [h1, hp1, h2, hp2, hp3]
                  | some minor =>
                      rw [splitAtFirstDot_none r2 (parseU8_no_dot r2 minor hp3)]
                      simp [h1, hp1, h2, hp2, hp3]

/-- `Version::parse` on a `String`, versus the amended shape of its
characters. -/
theorem Version.parse_isSome (s : String) :
    (Version.parse s).isSome = versionShapeAmended s.data :=
  Version.parseChars_isSome s.data

/-! ## The claims -/

@[simp] theorem deBool_ser_nil (b : Bool) : deBool (serBool b) = .ok (b, []) := by
  cases b <;> rfl

/-- C1: the claim `decode(encode(m)) == m` fails on the in-source
`serde::serialize`/`serde::deserialize` pair. Encoding
`Message { id: 1, content: Request::Ping }` produces
`[1,0,0,0, 4, 10, 0]` (id, kind, discriminant, plus a stray `0` from the
`Ping` arm); decoding it reads the kind byte from offset 0 — the id's
first byte, `1` — recognizes neither message kind, and returns `None`
instead of the original message. -/
theorem serde_roundtrip_fails_on_ping :
    serde.serialize ⟨1, .request .Ping⟩ = some [1, 0, 0, 0, 4, 10, 0] ∧
    serde.deserialize [1, 0, 0, 0, 4, 10, 0] = some none := by
  constructor <;> rfl

/-- C2: the claim that encoding is total and never panics fails on
`serde::serialize_request`: the `Handshake` arm copies
`mac[0], …, mac[6]` — seven octets from the six-octet hardware address —
so the out-of-bounds `mac[6]` panics (modelled as `none`). -/
theorem serde_serialize_handshake_panics :
    serde.serialize_request (.Handshake ⟨0, 1, 2, 3, 4, 5⟩) = none := rfl

/-- C3: the claim that decode is total and maps truncation to
`ExpectedOneMoreByte`/`ExpectedMoreBytes` fails on
`utils::deserialize_blob`: on `[2,0,0,0,0,0,0,0, 7]` — a strict prefix of
the valid blob encoding `[2,0,0,0,0,0,0,0, 7,7]` — it panics (`none`) in
`bytes.next().unwrap()`, while the trait impl for `Box<[u8]>` in
`deserializer.rs` returns `ExpectedMoreBytes { expected: 2, got: 1 }` on
the same input. -/
theorem utils_deserialize_blob_panics_on_truncation :
    utils.deserialize_blob [2, 0, 0, 0, 0, 0, 0, 0, 7] = none ∧
    deBlob [2, 0, 0, 0, 0, 0, 0, 0, 7] =
      .error (.ExpectedMoreBytes 2 1) := by
  constructor <;> rfl

/-- C4: decoding an encoded well-formed message with leftover input fails
with `ExtraDataLeft(n)`, `n` the number of leftover bytes (message-level
decode modelled from spec §4.4 over the in-source variant codecs). -/
theorem decode_rejects_trailing_data (m : Message) (extra : List Nat)
    (hm : m.WF) (hextra : extra ≠ []) :
    Message.decode (m.encode ++ extra) = .error (.ExtraDataLeft extra.length) := by
  rw [Message.decode_encode_append m extra hm, if_neg hextra]

/-- C4's witness: appending one extra byte to the encoding of
`Message { id: 1, content: Request::Ping }` yields `ExtraDataLeft(1)`. -/
theorem decode_rejects_trailing_data_witness :
    Message.decode (Message.encode ⟨1, .request .Ping⟩ ++ [0]) =
      .error (.ExtraDataLeft 1) :=
  decode_rejects_trailing_data ⟨1, .request .Ping⟩ [0]
    ⟨by norm_num, trivial⟩ (by simp)

/-- C5: a request-type byte outside the known set decodes to
`IllegalRequestType(byte)` and a response-type byte outside the known set
to `IllegalResponseType(byte)`, each carrying the offending byte
(`Request::deserialize` / `Response::deserialize` in
`serde/deserializer.rs`). -/
theorem illegal_discriminants_rejected (b : Nat) (rest : List Nat) :
    (¬(10 ≤ b ∧ b ≤ 19) →
        Request.deserialize (b :: rest) = .error (.IllegalRequestType b)) ∧
    (¬(40 ≤ b ∧ b ≤ 51) →
        Response.deserialize (b :: rest) = .error (.IllegalResponseType b)) := by
  constructor
  · intro h
    have hb : b ≠ 10 ∧ b ≠ 11 ∧ b ≠ 12 ∧ b ≠ 13 ∧ b ≠ 14 ∧ b ≠ 15 ∧
        b ≠ 16 ∧ b ≠ 17 ∧ b ≠ 18 ∧ b ≠ 19 := by omega
    obtain ⟨h1, h2, h3, h4, h5, h6, h7, h8, h9, h10⟩ := hb
    simp [Request.deserialize, nextByte, h1, h2, h3, h4, h5, h6, h7, h8, h9, h10]
  · intro h
    have hb : b ≠ 40 ∧ b ≠ 41 ∧ b ≠ 42 ∧ b ≠ 43 ∧ b ≠ 44 ∧ b ≠ 45 ∧
        b ≠ 46 ∧ b ≠ 47 ∧ b ≠ 48 ∧ b ≠ 49 ∧ b ≠ 50 ∧ b ≠ 51 := by omega
    obtain ⟨h1, h2, h3, h4, h5, h6, h7, h8, h9, h10, h11, h12⟩ := hb
    simp [Response.deserialize, nextByte, h1, h2, h3, h4, h5, h6, h7, h8, h9,
      h10, h11, h12]

/-- C6's counterexample: the claim that `Version.parse` succeeds exactly
on three decimal-digit groups is false at `"+1.2.3"` — `u8::from_str`
accepts an optional leading `'+'`, so parsing succeeds although the first
group is not a decimal-digit group. -/
theorem version_parse_claim_counterexample :
    Version.parse "+1.2.3" = some ⟨1, 2, 3⟩ ∧
    versionShapeClaimed "+1.2.3".data = false := by
  constructor <;> decide

/-- C6 (amended): `Version.parse` succeeds exactly when the text splits on
`'.'` into three groups, each an optionally-`'+'`-prefixed decimal numeral
fitting in an unsigned byte; `"1.2.6"` parses to major 1, middle 2,
minor 6 and renders back to `"1.2.6"`; `"1...0"` and `"1.2"` yield no
value. -/
theorem version_parse_characterized :
    (∀ s : String, (Version.parse s).isSome = versionShapeAmended s.data) ∧
    Version.parse "1.2.6" = some ⟨1, 2, 6⟩ ∧
    Version.toText ⟨1, 2, 6⟩ = "1.2.6" ∧
    Version.parse "1...0" = none ∧
    Version.parse "1.2" = none := by
  exact ⟨Version.parse_isSome, by decide, by decide, by decide, by decide⟩

/-- C7: the claim that `Message { id: 1, content: Request::Ping }` encodes
to six bytes and decodes back fails on the in-source
`serde::serialize`/`serde::deserialize`: the encoding is seven bytes long
(the `Ping` arm pushes a stray `0` field byte) and decoding it returns
`None`. -/
theorem ping_message_encoding_length :
    (serde.serialize ⟨1, .request .Ping⟩).map List.length = some 7 ∧
    serde.serialize ⟨1, .request .Ping⟩ = some [1, 0, 0, 0, 4, 10, 0] ∧
    serde.deserialize [1, 0, 0, 0, 4, 10, 0] = some none := by
  refine ⟨rfl, rfl, rfl⟩

/-- C8: `NodeSettings` encodes (`Serializable for NodeSettings`,
`serde/serializer.rs`) as its five fields in declaration order —
`battery_ignore`, `ota`, `sleep_time` (two bytes), `sbop`,
`mute_notifications` — six bytes, no length prefix, no tag. -/
theorem nodesettings_layout (s : NodeSettings) :
    s.serialize =
      [if s.battery_ignore then 1 else 0, if s.ota then 1 else 0] ++
        natToLe 2 s.sleep_time ++
        [if s.sbop then 1 else 0, if s.mute_notifications then 1 else 0] ∧
    s.serialize.length = 6 := by
  constructor <;> simp [NodeSettings.serialize, serBool, serU16, natToLe]

/-- C9: `Request::type_id` lands in 10–19 and separates the request
constructors, `Response::type_id` lands in 40–51 and separates the
response constructors, the message-kind bytes are 4 and 6, and the three
sets are pairwise disjoint. -/
theorem discriminants_injective_and_banded :
    (∀ r : Request, 10 ≤ r.type_id ∧ r.type_id ≤ 19) ∧
    (∀ p : Response, 40 ≤ p.type_id ∧ p.type_id ≤ 51) ∧
    (∀ r r' : Request, r.type_id = r'.type_id ↔ r.ctorIdx = r'.ctorIdx) ∧
    (∀ p p' : Response, p.type_id = p'.type_id ↔ p.ctorIdx = p'.ctorIdx) ∧
    consts.MSG_KIND_REQUEST = 4 ∧ consts.MSG_KIND_RESPONSE = 6 ∧
    (∀ (r : Request) (p : Response), r.type_id ≠ p.type_id) ∧
    (∀ r : Request,
      r.type_id ≠ consts.MSG_KIND_REQUEST ∧ r.type_id ≠ consts.MSG_KIND_RESPONSE) ∧
    (∀ p : Response,
      p.type_id ≠ consts.MSG_KIND_REQUEST ∧ p.type_id ≠ consts.MSG_KIND_RESPONSE) := by
  refine ⟨fun r => ?_, fun p => ?_, fun r r' => ?_, fun p p' => ?_, rfl, rfl,
    fun r p => ?_, fun r => ?_, fun p => ?_⟩
  · cases r <;> simp [Request.type_id]
  · cases p <;> simp [Response.type_id]
  · cases r <;> cases r' <;> simp [Request.type_id, Request.ctorIdx]
  · cases p <;> cases p' <;> simp [Response.type_id, Response.ctorIdx]
  · cases r <;> cases p <;> simp [Request.type_id, Response.type_id]
  · cases r <;> simp [Request.type_id]
  · cases p <;> simp [Response.type_id]

/-- C10: in the `Settings` arm of `serde::deserialize_response`, an input
that ends before the optional-presence tag byte is treated as tag `0` and
succeeds with `Settings(None)`; a `0` tag yields `Settings(None)` whatever
follows; and any nonzero tag byte — not only `1` — selects the present
case and decodes the settings fields. -/
theorem settings_arm_tag_handling (rest : List Nat) (b : Nat) (s : NodeSettings) :
    serde.deserialize_response [consts.RES_KIND_SETTINGS] =
      some (some (.Settings none)) ∧
    serde.deserialize_response (consts.RES_KIND_SETTINGS :: 0 :: rest) =
      some (some (.Settings none)) ∧
    (b ≠ 0 → s.sleep_time < 2 ^ 16 →
      serde.deserialize_response (consts.RES_KIND_SETTINGS :: b ::
          (serBool s.battery_ignore ++ serBool s.ota ++ serU16 s.sleep_time ++
            serBool s.sbop ++ serBool s.mute_notifications)) =
        some (some (.Settings (some s)))) := by
  refine ⟨by rfl, by simp [serde.deserialize_response], ?_⟩
  intro hb hsleep
  obtain ⟨b', rfl⟩ : ∃ b', b = b' + 1 := ⟨b - 1, by omega⟩
  simp [serde.deserialize_response, List.append_assoc, deBool_ser,
    deU16_ser _ _ hsleep, deBool_ser_nil]

end PwmpMsg
